import Mathlib

/-!
Verification development for the PDF Q&A vector-store UI script
(`streamlit_app.py`).  The Python helpers are shallowly embedded as Lean
functions:

* Python objects whose attributes may be missing or `None` are modelled with
  the `Attr` type below; a plain attribute access on a missing attribute is an
  `AttributeError`, modelled with `Except`, while `getattr(o, "a", d)` is
  total.
* The two citation extractors accumulate identifiers into a Python `set` and
  return `list(file_ids)`.  CPython string hashing is seed-randomised, so the
  iteration order of a `set` of strings is not a function of insertion order;
  we model `list(·)` on the set as an arbitrary enumeration `enum` that is
  required only to produce a permutation of the set's contents (the contents
  are represented canonically in first-insertion order).
* Remote calls (request shapes, run-status retrieval, pagination, file
  lookup) are oracles passed as function arguments; clock time in the polling
  loop is modelled with `ℚ`, each retrieve call taking a nonnegative latency.
-/

namespace PdfQA

/-- A Python attribute slot: absent, present with value `None`, or present
with a real value. -/
inductive Attr (α : Type) where
  | missing
  | pyNone
  | val (a : α)
deriving DecidableEq

/-- `getattr(o, "a", None)`, with Python `None` collapsed to `none`
(both an absent attribute and an attribute holding `None` give a falsy
result). -/
def attrOrNone {α : Type} : Attr α → Option α
  | .missing => none
  | .pyNone => none
  | .val a => some a

/-- `getattr(o, "a", []) or []`: an absent attribute or `None` becomes the
empty list. -/
def attrList {α : Type} : Attr (List α) → List α
  | .missing => []
  | .pyNone => []
  | .val l => l

/-- The `file_citation` object carried by an annotation
(`ann.file_citation`), exposing `file_id`. -/
structure FileCitationObj where
  file_id : Attr String
deriving DecidableEq

/-- A citation annotation object (`ann`), with a `type` tag and an optional
`file_citation` payload. -/
structure AnnObj where
  type : Attr String
  file_citation : Attr FileCitationObj
deriving DecidableEq

/-- A content item of a Responses-API message block (`c`), with `type` and
`annotations`. -/
structure ContentItem where
  type : Attr String
  annotations : Attr (List AnnObj)
deriving DecidableEq

/-- The `message` object of a Responses-API output block
(`block.message`), with its `content` list. -/
structure InnerMessage where
  content : Attr (List ContentItem)
deriving DecidableEq

/-- A Responses-API output block (`block`). -/
structure RBlock where
  type : Attr String
  message : Attr InnerMessage
deriving DecidableEq

/-- A Responses-API response object (`resp`), with `output_text` and the
`output` block list. -/
structure RespObj where
  output_text : Attr String
  output : Attr (List RBlock)
deriving DecidableEq

/-- The `text` object of an Assistants-API message content item
(`item.text`), with `value` and `annotations`. -/
structure TextObj where
  value : Attr String
  annotations : Attr (List AnnObj)
deriving DecidableEq

/-- A content item of an Assistants-API thread message (`item`). -/
structure MsgItem where
  type : Attr String
  text : Attr TextObj
deriving DecidableEq

/-- An Assistants-API thread message (`msg`), with `role` and `content`. -/
structure Msg where
  role : Attr String
  content : Attr (List MsgItem)
deriving DecidableEq

/-- `file_ids.add(fid)` on a Python set, represented canonically as the list
of elements in first-insertion order. -/
def addFid (acc : List String) (fid : String) : List String :=
  if fid ∈ acc then acc else acc ++ [fid]

/-- First-seen deduplication of a list (the contents, in insertion order, of
a Python set built by adding the elements left to right). -/
def dedupFirst (l : List String) : List String :=
  l.foldl addFid []

/-- A left fold whose step may raise; the error payload carries the
accumulator at the moment of the raise (Python: an exception escaping a
`for` loop, caught by the surrounding `try`). -/
def foldE {β : Type} (f : List String → β → Except (List String) (List String)) :
    List String → List β → Except (List String) (List String)
  | acc, [] => .ok acc
  | acc, b :: bs =>
    match f acc b with
    | .ok acc2 => foldE f acc2 bs
    | .error a => .error a

/-- The accumulator delivered by a possibly-raising fold: the Python code
returns `list(file_ids)` whether or not the loop raised. -/
def exVal : Except (List String) (List String) → List String
  | .ok a => a
  | .error a => a

/-- Annotation handling in `extract_file_ids_from_responses` (lines
146–149): the `type` check and both `file_citation` and `file_id` accesses
go through `getattr` defaults, and `if fid:` skips falsy (empty)
identifiers; nothing here can raise. -/
def annStep (acc : List String) (ann : AnnObj) : List String :=
  if attrOrNone ann.type = some "file_citation" then
    match attrOrNone ann.file_citation with
    | some fc =>
      match attrOrNone fc.file_id with
      | some fid => if fid = "" then acc else addFid acc fid
      | none => acc
    | none => acc
  else acc

/-- Content-item handling in `extract_file_ids_from_responses` (lines
144–149): only items whose `type` is `"output_text"` are scanned;
`annotations` is read with a defaulting access. -/
def itemStepResp (acc : List String) (c : ContentItem) : List String :=
  if attrOrNone c.type = some "output_text" then
    (attrList c.annotations).foldl annStep acc
  else acc

/-- Block handling in `extract_file_ids_from_responses` (lines 141–149):
`block.type`, `block.message` and `block.message.content` are plain
attribute accesses, so a missing attribute (or `None` message) raises. -/
def blockStep (acc : List String) (b : RBlock) :
    Except (List String) (List String) :=
  match b.type with
  | .missing => .error acc
  | .pyNone => .ok acc
  | .val t =>
    if t = "message" then
      match b.message with
      | .missing => .error acc
      | .pyNone => .error acc
      | .val m =>
        match m.content with
        | .missing => .error acc
        | .pyNone => .ok acc
        | .val items => .ok (items.foldl itemStepResp acc)
    else .ok acc

/-- The set of file identifiers accumulated by
`extract_file_ids_from_responses` (lines 138–152), in first-insertion
order; the surrounding `try`/`except Exception: pass` makes any raise end
the scan with the identifiers collected so far. -/
def respIdsCore (resp : RespObj) : List String :=
  match resp.output with
  | .missing => []
  | .pyNone => []
  | .val blocks => exVal (foldE blockStep [] blocks)

/-- `extract_file_ids_from_responses` (lines 138–152): the returned
`list(file_ids)` enumerates the set in an order chosen by the hash table;
`enum` stands for that enumeration. -/
def extract_file_ids_from_responses (enum : List String → List String)
    (resp : RespObj) : List String :=
  enum (respIdsCore resp)

/-- Annotation handling in `extract_file_ids_from_messages` (lines
162–164): `ann.file_citation` is a plain attribute access, so a missing
citation object raises; `getattr(ann.file_citation, "file_id", None)` is
total once the object (possibly `None`) is in hand. -/
def annStepMsgs (acc : List String) (ann : AnnObj) :
    Except (List String) (List String) :=
  if attrOrNone ann.type = some "file_citation" then
    match ann.file_citation with
    | .missing => .error acc
    | .pyNone => .ok acc
    | .val fc =>
      match attrOrNone fc.file_id with
      | some fid => .ok (if fid = "" then acc else addFid acc fid)
      | none => .ok acc
  else .ok acc

/-- Content-item handling in `extract_file_ids_from_messages` (lines
160–164): `item.text` is a plain access (raises when missing), while a
`None` text object yields an empty annotation list via the `getattr`
default. -/
def itemStepMsgs (acc : List String) (item : MsgItem) :
    Except (List String) (List String) :=
  if attrOrNone item.type = some "text" then
    match item.text with
    | .missing => .error acc
    | .pyNone => .ok acc
    | .val t => foldE annStepMsgs acc (attrList t.annotations)
  else .ok acc

/-- Message handling in `extract_file_ids_from_messages` (lines 157–164):
non-assistant messages are skipped via a defaulting `role` read;
`msg.content` is a plain access softened by `or []`. -/
def msgStep (acc : List String) (m : Msg) :
    Except (List String) (List String) :=
  if m.role = .val "assistant" then
    match m.content with
    | .missing => .error acc
    | .pyNone => .ok acc
    | .val items => foldE itemStepMsgs acc items
  else .ok acc

/-- The set of file identifiers accumulated by
`extract_file_ids_from_messages` (lines 154–167), in first-insertion
order. -/
def msgsIdsCore (msgs : List Msg) : List String :=
  exVal (foldE msgStep [] msgs)

/-- `extract_file_ids_from_messages` (lines 154–167), with the set
enumeration abstracted as for the Responses variant. -/
def extract_file_ids_from_messages (enum : List String → List String)
    (msgs : List Msg) : List String :=
  enum (msgsIdsCore msgs)

/-- An enumeration of a Python set: any function producing a permutation of
the set's contents.  `IsSetEnum` holds of every order CPython could emit
(including, for two-element string sets under some hash seeds, the reverse
of insertion order). -/
def IsSetEnum (enum : List String → List String) : Prop :=
  ∀ l : List String, (enum l).Perm l

/-- Modelled from the spec (§4.2): the file identifier a single annotation
contributes — annotations of kind `file_citation` whose citation object and
identifier are present contribute that identifier; malformed annotations
contribute nothing.  Like the code (`if fid:`), an empty-string identifier
is treated as absent. -/
def annSpecId (ann : AnnObj) : Option String :=
  if attrOrNone ann.type = some "file_citation" then
    match attrOrNone ann.file_citation with
    | some fc =>
      match attrOrNone fc.file_id with
      | some fid => if fid = "" then none else some fid
      | none => none
    | none => none
  else none

/-- Modelled from the spec (§4.2, primary shape): identifiers contributed by
one content item — only items of kind `output_text` are scanned. -/
def itemSpecIdsResp (c : ContentItem) : List String :=
  if attrOrNone c.type = some "output_text" then
    (attrList c.annotations).filterMap annSpecId
  else []

/-- Modelled from the spec (§4.2, primary shape): identifiers contributed by
one output block — only `message` blocks are scanned, tolerating missing
pieces by skipping them. -/
def blockSpecIds (b : RBlock) : List String :=
  if attrOrNone b.type = some "message" then
    match attrOrNone b.message with
    | some m => (attrList m.content).flatMap itemSpecIdsResp
    | none => []
  else []

/-- Modelled from the spec (§4.2, primary shape): every well-formed
`file_citation` identifier of a Responses payload, in first-appearance
order of the scan (with multiplicity). -/
def respSpecIds (resp : RespObj) : List String :=
  (attrList resp.output).flatMap blockSpecIds

/-- Modelled from the spec (§4.2, secondary shape): identifiers contributed
by one message content item — only items of kind `text` are scanned. -/
def itemSpecIdsMsgs (item : MsgItem) : List String :=
  if attrOrNone item.type = some "text" then
    match attrOrNone item.text with
    | some t => (attrList t.annotations).filterMap annSpecId
    | none => []
  else []

/-- Modelled from the spec (§4.2, secondary shape): identifiers contributed
by one thread message — only assistant-authored messages are scanned. -/
def msgSpecIds (m : Msg) : List String :=
  if attrOrNone m.role = some "assistant" then
    (attrList m.content).flatMap itemSpecIdsMsgs
  else []

/-- Modelled from the spec (§4.2, secondary shape): every well-formed
`file_citation` identifier of a message list, in scan order (with
multiplicity). -/
def msgsSpecIds (msgs : List Msg) : List String :=
  msgs.flatMap msgSpecIds

/-- Does scanning this block raise in `extract_file_ids_from_responses`?
(Missing `type`, or a `message` block with missing/`None` `message` or
missing `content`.) -/
def blockRaisesB (b : RBlock) : Bool :=
  match b.type with
  | .missing => true
  | .pyNone => false
  | .val t =>
    if t = "message" then
      match b.message with
      | .missing => true
      | .pyNone => true
      | .val m =>
        match m.content with
        | .missing => true
        | _ => false
    else false

/-- Does the whole Responses scan run to completion without a raise? -/
def respScanOkB (resp : RespObj) : Bool :=
  match resp.output with
  | .val blocks => blocks.all (fun b => !blockRaisesB b)
  | _ => true

/-- Does scanning this annotation raise in
`extract_file_ids_from_messages`?  (`type` is `file_citation` but the
`file_citation` attribute is missing.) -/
def annRaisesB (ann : AnnObj) : Bool :=
  if attrOrNone ann.type = some "file_citation" then
    match ann.file_citation with
    | .missing => true
    | _ => false
  else false

/-- Does scanning this message content item raise?  (`type` is `text` but
the `text` attribute is missing, or some annotation raises.) -/
def itemRaisesB (item : MsgItem) : Bool :=
  if attrOrNone item.type = some "text" then
    match item.text with
    | .missing => true
    | .pyNone => false
    | .val t => (attrList t.annotations).any annRaisesB
  else false

/-- Does scanning this thread message raise?  (Assistant message with a
missing `content` attribute, or some item raises.) -/
def msgRaisesB (m : Msg) : Bool :=
  if m.role = .val "assistant" then
    match m.content with
    | .missing => true
    | .pyNone => false
    | .val items => items.any itemRaisesB
  else false

/-- Does the whole message-list scan run to completion without a raise? -/
def msgsScanOkB (msgs : List Msg) : Bool :=
  msgs.all (fun m => !msgRaisesB m)

/-- The three Responses-API request shapes tried by `ask_with_responses`
(lines 185–215), newest first: the top-level `file_search` argument, the
`tool_resources` keyword, and the `extra_body` fallback. -/
inductive Shape where
  | fileSearchTop
  | toolResources
  | extraBody
deriving DecidableEq

/-- The request data every shape receives (lines 188–214): model, vector
store id, and the stripped system/user texts. -/
structure PrimReq where
  model : String
  vs_id : String
  system : String
  userq : String
deriving DecidableEq

/-- The request `ask_with_responses` passes to every shape:
`model.strip()` is not applied, but both texts are stripped
(`system.strip()`, `userq.strip()`, lines 190–191). -/
def primReqOf (model vs_id system userq : String) : PrimReq :=
  ⟨model, vs_id, system.trim, userq.trim⟩

/-- `ask_with_responses` (lines 185–215): try the three shapes in order
inside `try`/`except`, returning the first success; the third shape's
exception propagates.  The second component records which shapes were
invoked, in order. -/
def ask_with_responses (call : Shape → PrimReq → Except String RespObj)
    (model vs_id system userq : String) :
    Except String RespObj × List Shape :=
  match call .fileSearchTop (primReqOf model vs_id system userq) with
  | .ok r => (.ok r, [.fileSearchTop])
  | .error _ =>
    match call .toolResources (primReqOf model vs_id system userq) with
    | .ok r => (.ok r, [.fileSearchTop, .toolResources])
    | .error _ =>
      (call .extraBody (primReqOf model vs_id system userq),
       [.fileSearchTop, .toolResources, .extraBody])

/-- The terminal run statuses of the polling loop (line 233). -/
def terminalStatuses : List String :=
  ["completed", "failed", "cancelled", "expired"]

/-- `run.status in {"completed", "failed", "cancelled", "expired"}`. -/
def isTerminal (s : String) : Bool :=
  terminalStatuses.contains s

/-- The sleep interval before the `(k+1)`-th poll (lines 230, 235):
`sleep_s` starts at `0.75` and is updated to `min(sleep_s * 1.5, 6.0)`
after every sleep. -/
def sleepSched : Nat → ℚ
  | 0 => 3 / 4
  | k + 1 => min (sleepSched k * (3 / 2)) 6

/-- Elapsed time (relative to loop entry) just before the `k`-th
run-status retrieval: the latencies of the earlier retrievals plus the
earlier sleeps. -/
def tBefore (lat : Nat → ℚ) (k : Nat) : ℚ :=
  (∑ j ∈ Finset.range k, lat j) + ∑ j ∈ Finset.range k, sleepSched j

/-- Elapsed time just after the `k`-th run-status retrieval — the value of
`time.time() - start` at the deadline check of iteration `k`. -/
def tPoll (lat : Nat → ℚ) (k : Nat) : ℚ :=
  tBefore lat k + lat k

/-- Outcome of the polling loop: a terminal status observed at poll `k`, a
deadline breach detected at poll `k`, or fuel exhaustion (unreachable for
nonnegative latencies, since every continuing iteration sleeps at least
0.75 time-units against the 360-unit deadline). -/
inductive PollResult where
  | terminal (k : Nat) (s : String)
  | timeout (k : Nat)
  | fuelOut
deriving DecidableEq

/-- The `while True` polling loop of `ask_with_assistants` (lines
229–235): retrieve the run (consuming `lat k` time), break on a terminal
status, raise a timeout if past the deadline, otherwise sleep and grow the
interval.  Also returns the list of sleeps performed.  `status k` is the
status reported by the `k`-th retrieval. -/
def pollAux (status : Nat → String) (lat : Nat → ℚ) :
    Nat → Nat → ℚ → ℚ → PollResult × List ℚ
  | 0, _, _, _ => (.fuelOut, [])
  | fuel + 1, k, t, s =>
    let t1 := t + lat k
    if isTerminal (status k) then (.terminal k (status k), [])
    else if 360 < t1 then (.timeout k, [])
    else
      let r := pollAux status lat fuel (k + 1) (t1 + s) (min (s * (3 / 2)) 6)
      (r.1, s :: r.2)

/-- The polling loop entered with `sleep_s = 0.75` and
`deadline = now + 60 * 6`; 482 iterations always suffice to reach the
deadline, so the fuel is not observable. -/
def pollRun (status : Nat → String) (lat : Nat → ℚ) : PollResult × List ℚ :=
  pollAux status lat 482 0 0 (3 / 4)

/-- The failures `ask_with_assistants` can raise after run creation:
`RuntimeError("Run timed out.")` (line 234),
`RuntimeError(f"Run did not complete: ...")` (line 237), or an
`AttributeError` escaping the harvest loop (lines 241–247). -/
inductive AsstErr where
  | timeout
  | notCompleted (status : String)
  | attrError
deriving DecidableEq

/-- The message of each `ask_with_assistants` failure. -/
def asstErrMsg : AsstErr → String
  | .timeout => "Run timed out."
  | .notCompleted s => "Run did not complete: " ++ s
  | .attrError => "attribute error"

/-- The value `ask_with_assistants` returns on success: the harvested
answer text and the extracted file ids. -/
structure AsstOut where
  output_text : String
  file_ids : List String
deriving DecidableEq

/-- The inner `for item in m.content` loop of the harvest (lines 243–246):
stop at the first item whose `type` is `"text"` and take
`item.text.value or ""`; plain attribute accesses may raise. -/
def harvestMsgItems : List MsgItem → Except Unit String
  | [] => .ok ""
  | item :: rest =>
    match item.type with
    | .missing => .error ()
    | .pyNone => harvestMsgItems rest
    | .val ty =>
      if ty = "text" then
        match item.text with
        | .missing => .error ()
        | .pyNone => .error ()
        | .val t =>
          match t.value with
          | .missing => .error ()
          | .pyNone => .ok ""
          | .val s => .ok s
      else harvestMsgItems rest

/-- The outer harvest loop of `ask_with_assistants` (lines 240–247): scan
the (newest-first) messages, skip non-assistant ones, and break at the
first assistant message yielding nonempty text; otherwise the answer is
the empty string. -/
def harvestMsgs : List Msg → Except Unit String
  | [] => .ok ""
  | m :: rest =>
    match m.role with
    | .missing => .error ()
    | .pyNone => harvestMsgs rest
    | .val r =>
      if r = "assistant" then
        match m.content with
        | .missing => .error ()
        | .pyNone => .error ()
        | .val items =>
          match harvestMsgItems items with
          | .error e => .error e
          | .ok a => if a = "" then harvestMsgs rest else .ok a
      else harvestMsgs rest

/-- Lines 239–250 after a completed run: harvest the answer text and
extract the citation ids from the same message list. -/
def harvestResult (msgs : List Msg) (enum : List String → List String) :
    Except AsstErr AsstOut :=
  match harvestMsgs msgs with
  | .error _ => .error .attrError
  | .ok a => .ok ⟨a, extract_file_ids_from_messages enum msgs⟩

/-- `ask_with_assistants` (lines 217–250) from the start of the polling
loop: poll until terminal or deadline; a non-`completed` terminal status
raises `Run did not complete: ...`; only `completed` proceeds to
harvesting.  `msgs` is the message list returned by the final
`messages.list` call (newest first, capped at 5 by the remote service). -/
def ask_with_assistants (status : Nat → String) (lat : Nat → ℚ)
    (msgs : List Msg) (enum : List String → List String) :
    Except AsstErr AsstOut :=
  match (pollRun status lat).1 with
  | .terminal _ s =>
    if s = "completed" then harvestResult msgs enum
    else .error (.notCompleted s)
  | _ => .error .timeout

/-- `getattr(resp, "output_text", None) or "(no text)"` (line 281): a
missing, `None` or empty `output_text` becomes the placeholder. -/
def respAnswerText (resp : RespObj) : String :=
  match resp.output_text with
  | .val s => if s = "" then "(no text)" else s
  | _ => "(no text)"

/-- The answer shown by the Ask tab: answer text plus extracted ids. -/
structure AskOut where
  answer_text : String
  file_ids : List String
deriving DecidableEq

/-- The Ask-tab dispatch (lines 279–286): try `ask_with_responses`; on any
exception fall back to `ask_with_assistants`.  Second component: whether
the secondary (assistants) protocol was invoked; third: which primary
shapes were attempted. -/
def tab_ask_dispatch (call : Shape → PrimReq → Except String RespObj)
    (model vs_id system userq : String) (status : Nat → String)
    (lat : Nat → ℚ) (msgs : List Msg)
    (enum : List String → List String) :
    Except AsstErr AskOut × Bool × List Shape :=
  match ask_with_responses call model vs_id system userq with
  | (.ok resp, tried) =>
    (.ok ⟨respAnswerText resp, extract_file_ids_from_responses enum resp⟩,
      false, tried)
  | (.error _, tried) =>
    ((ask_with_assistants status lat msgs enum).map
        (fun r => ⟨r.output_text, r.file_ids⟩),
      true, tried)

/-- An entry of a vector-store file-listing page (`it`), exposing `id`. -/
structure VsFileEntry where
  id : String
deriving DecidableEq

/-- One page returned by `client.vector_stores.files.list` (line 172). -/
structure VsPage where
  data : List VsFileEntry
  has_more : Bool
  last_id : Option String
deriving DecidableEq

/-- The file object returned by `client.files.retrieve`, exposing
`filename`. -/
structure FileObj where
  filename : Attr String
deriving DecidableEq

/-- The display name computed in `list_vs_files` (lines 177–182):
`f.filename or it.id` inside `try`, with any exception (failed lookup or a
missing `filename` attribute) falling back to the identifier itself. -/
def resolveName (retr : String → Except Unit FileObj) (fid : String) :
    String :=
  match retr fid with
  | .error _ => fid
  | .ok f =>
    match f.filename with
    | .val s => if s = "" then fid else s
    | _ => fid

/-- The chip label computed in `render_sources` (lines 256–261):
`getattr(f, "filename", fid) or fid` inside `try`, exceptions falling back
to the identifier. -/
def chipLabel (retr : String → Except Unit FileObj) (fid : String) :
    String :=
  match retr fid with
  | .error _ => fid
  | .ok f =>
    match f.filename with
    | .val s => if s = "" then fid else s
    | _ => fid

/-- The pagination loop of `list_vs_files` (lines 170–175), with a call
trace recording the cursor and the `limit` argument (always 100) of every
page request.  Fuel models the `while True` loop; `none` stands for
nontermination. -/
def lvfLoop (pager : Option String → VsPage) :
    Nat → Option String → List VsFileEntry → List (Option String × Nat) →
    Option (List VsFileEntry × List (Option String × Nat))
  | 0, _, _, _ => none
  | fuel + 1, after, acc, calls =>
    if (pager after).has_more then
      lvfLoop pager fuel (pager after).last_id (acc ++ (pager after).data)
        (calls ++ [(after, 100)])
    else some (acc ++ (pager after).data, calls ++ [(after, 100)])

/-- `list_vs_files` (lines 169–183): paginate with cursor `after` (initially
absent), then resolve each accumulated entry's display name. -/
def list_vs_files (pager : Option String → VsPage)
    (retr : String → Except Unit FileObj) (fuel : Nat) :
    Option (List (String × String) × List (Option String × Nat)) :=
  match lvfLoop pager fuel none [] [] with
  | none => none
  | some (entries, calls) =>
    some (entries.map (fun e => (e.id, resolveName retr e.id)), calls)

/-- The page fetched `k` steps after starting from cursor `c`: the cursor
chain is deterministic, each step advancing to the previous page's
`last_id`. -/
def pageSeqFrom (pager : Option String → VsPage) :
    Option String → Nat → VsPage
  | c, 0 => pager c
  | c, k + 1 => pageSeqFrom pager (pager c).last_id k

/-- The cursor used for the `k`-th page request when starting from `c`. -/
def cursorSeqFrom (pager : Option String → VsPage) :
    Option String → Nat → Option String
  | c, 0 => c
  | c, k + 1 => cursorSeqFrom pager (pager c).last_id k

/-- The pages fetched by `list_vs_files` (which starts from an absent
cursor). -/
def pageSeq (pager : Option String → VsPage) (k : Nat) : VsPage :=
  pageSeqFrom pager none k

/-- The cursors used by `list_vs_files`. -/
def cursorSeq (pager : Option String → VsPage) (k : Nat) : Option String :=
  cursorSeqFrom pager none k

/-- The empty-citations message of `render_sources` (line 254). -/
def noCitationsMsg : String :=
  "No file citations returned (or none detected)."

/-- What `render_sources` displays. -/
structure RenderOut where
  emptyMsg : Option String
  chips : List String
deriving DecidableEq

/-- `render_sources` (lines 252–261): an empty id list yields the explicit
no-citations message; otherwise at most the first 10 ids are resolved into
chips. -/
def render_sources (retr : String → Except Unit FileObj)
    (file_ids : List String) : RenderOut :=
  if file_ids.isEmpty then ⟨some noCitationsMsg, []⟩
  else ⟨none, (file_ids.take 10).map (chipLabel retr)⟩

/-- The per-file question synthesized by the Summarize-ALL loop (lines
322–326). -/
def perFileQuestion (fname : String) : String :=
  "Summarize the paper **" ++ fname ++ "** in 2–3 sentences. " ++
  "Use only content from " ++ fname ++ ". Include one short quote and end with " ++
  "[" ++ fname ++ " p.— §—]."

/-- What one run of the Summarize-ALL loop produces: the collected
markdown summaries, the error lines shown for failed files, and the
progress fractions reported after each file. -/
structure BatchOut where
  results_md : List String
  errors : List String
  progressReports : List ℚ
deriving DecidableEq

/-- The body of the Summarize-ALL loop (lines 321–344), starting at
1-based index `idx`: each file's summarization either succeeds (appending
a markdown section) or fails (recording `f"{fname}: {e}"`); either way the
loop continues and reports progress `idx / total`.  `summ k q` is the
outcome of the combined primary/secondary dispatch for the `k`-th file's
question `q`. -/
def batchGo (summ : Nat → String → Except String String) (total : ℚ) :
    Nat → List (String × String) → BatchOut
  | _, [] => ⟨[], [], []⟩
  | idx, (_, fname) :: rest =>
    let res := batchGo summ total (idx + 1) rest
    match summ idx (perFileQuestion fname) with
    | .ok a =>
      ⟨("### " ++ fname ++ "\n\n" ++ a ++ "\n") :: res.results_md,
        res.errors, ((idx : ℚ) / total) :: res.progressReports⟩
    | .error e =>
      ⟨res.results_md, (fname ++ ": " ++ e) :: res.errors,
        ((idx : ℚ) / total) :: res.progressReports⟩

/-- The Summarize-ALL batch (lines 318–344) over the listed files, with
`total = len(files)` and 1-based enumeration. -/
def tab_all_batch (files : List (String × String))
    (summ : Nat → String → Except String String) : BatchOut :=
  batchGo summ (files.length : ℚ) 1 files

/-- C1 (amended part): both extractors return a duplicate-free list that is
a permutation of the first-insertion-ordered set contents and contains only
genuine citation identifiers; the output order itself is whatever the set
enumeration produces. -/
def C1Concl (enum : List String → List String) (resp : RespObj)
    (msgs : List Msg) : Prop :=
  (extract_file_ids_from_responses enum resp).Nodup ∧
  (extract_file_ids_from_responses enum resp).Perm (respIdsCore resp) ∧
  (∀ x ∈ extract_file_ids_from_responses enum resp, x ∈ respSpecIds resp) ∧
  (extract_file_ids_from_messages enum msgs).Nodup ∧
  (extract_file_ids_from_messages enum msgs).Perm (msgsIdsCore msgs) ∧
  (∀ x ∈ extract_file_ids_from_messages enum msgs, x ∈ msgsSpecIds msgs)

/-- C2: the exact fallback behaviour of the Ask-tab dispatch, one conjunct
per outcome of the three primary shapes. -/
def C2Concl (call : Shape → PrimReq → Except String RespObj)
    (model vs_id system userq : String) (status : Nat → String)
    (lat : Nat → ℚ) (msgs : List Msg)
    (enum : List String → List String) : Prop :=
  (∀ r, call .fileSearchTop (primReqOf model vs_id system userq) = .ok r →
    ask_with_responses call model vs_id system userq
      = (.ok r, [.fileSearchTop]) ∧
    tab_ask_dispatch call model vs_id system userq status lat msgs enum
      = (.ok ⟨respAnswerText r, extract_file_ids_from_responses enum r⟩,
         false, [.fileSearchTop])) ∧
  (∀ e1 r, call .fileSearchTop (primReqOf model vs_id system userq) = .error e1 →
    call .toolResources (primReqOf model vs_id system userq) = .ok r →
    ask_with_responses call model vs_id system userq
      = (.ok r, [.fileSearchTop, .toolResources]) ∧
    tab_ask_dispatch call model vs_id system userq status lat msgs enum
      = (.ok ⟨respAnswerText r, extract_file_ids_from_responses enum r⟩,
         false, [.fileSearchTop, .toolResources])) ∧
  (∀ e1 e2 r, call .fileSearchTop (primReqOf model vs_id system userq) = .error e1 →
    call .toolResources (primReqOf model vs_id system userq) = .error e2 →
    call .extraBody (primReqOf model vs_id system userq) = .ok r →
    ask_with_responses call model vs_id system userq
      = (.ok r, [.fileSearchTop, .toolResources, .extraBody]) ∧
    tab_ask_dispatch call model vs_id system userq status lat msgs enum
      = (.ok ⟨respAnswerText r, extract_file_ids_from_responses enum r⟩,
         false, [.fileSearchTop, .toolResources, .extraBody])) ∧
  (∀ e1 e2 e3, call .fileSearchTop (primReqOf model vs_id system userq) = .error e1 →
    call .toolResources (primReqOf model vs_id system userq) = .error e2 →
    call .extraBody (primReqOf model vs_id system userq) = .error e3 →
    ask_with_responses call model vs_id system userq
      = (.error e3, [.fileSearchTop, .toolResources, .extraBody]) ∧
    tab_ask_dispatch call model vs_id system userq status lat msgs enum
      = ((ask_with_assistants status lat msgs enum).map
           (fun r => ⟨r.output_text, r.file_ids⟩),
         true, [.fileSearchTop, .toolResources, .extraBody]))

/-- C3: the polling loop follows the 0.75·1.5^j (capped at 6) sleep
schedule; it stops at the first poll that is terminal or past the
deadline; a timeout is a distinct error from a terminal-status failure; a
non-`completed` terminal status raises a message naming the status, and
only `completed` proceeds to harvesting. -/
def C3Concl (status : Nat → String) (lat : Nat → ℚ) (msgs : List Msg)
    (enum : List String → List String) : Prop :=
  (∀ j, sleepSched j = min ((3 / 4 : ℚ) * (3 / 2) ^ j) 6) ∧
  (∀ s, (AsstErr.timeout : AsstErr) ≠ AsstErr.notCompleted s) ∧
  ∃ n, (∀ j < n, isTerminal (status j) = false ∧ tPoll lat j ≤ 360) ∧
    (pollRun status lat).2 = (List.range n).map sleepSched ∧
    ((isTerminal (status n) = true ∧
        (pollRun status lat).1 = PollResult.terminal n (status n)) ∨
     (isTerminal (status n) = false ∧ 360 < tPoll lat n ∧
        (pollRun status lat).1 = PollResult.timeout n)) ∧
    (isTerminal (status n) = true → status n ≠ "completed" →
      ask_with_assistants status lat msgs enum
        = .error (.notCompleted (status n)) ∧
      asstErrMsg (.notCompleted (status n))
        = "Run did not complete: " ++ status n) ∧
    (isTerminal (status n) = true → status n = "completed" →
      ask_with_assistants status lat msgs enum = harvestResult msgs enum) ∧
    (isTerminal (status n) = false → 360 < tPoll lat n →
      ask_with_assistants status lat msgs enum = .error .timeout ∧
      asstErrMsg .timeout = "Run timed out.")

/-- C4 (amended part): both extractors only ever report genuine
identifiers, and on inputs whose scan raises no attribute error the output
is exactly the deduplicated well-formed identifier set. -/
def C4Concl (enum : List String → List String) (resp : RespObj)
    (msgs : List Msg) : Prop :=
  (∀ x ∈ extract_file_ids_from_responses enum resp, x ∈ respSpecIds resp) ∧
  (respScanOkB resp = true →
    (extract_file_ids_from_responses enum resp).Perm
      (dedupFirst (respSpecIds resp))) ∧
  (∀ x ∈ extract_file_ids_from_messages enum msgs, x ∈ msgsSpecIds msgs) ∧
  (msgsScanOkB msgs = true →
    (extract_file_ids_from_messages enum msgs).Perm
      (dedupFirst (msgsSpecIds msgs)))

/-- C5 (amended part): an AnswerResult produced by the primary path never
carries empty text (the placeholder steps in), while a secondary-path
AnswerResult carries exactly the harvested text, which may be empty. -/
def C5Concl (call : Shape → PrimReq → Except String RespObj)
    (model vs_id system userq : String) (status : Nat → String)
    (lat : Nat → ℚ) (msgs : List Msg)
    (enum : List String → List String) : Prop :=
  (∀ out tried,
    tab_ask_dispatch call model vs_id system userq status lat msgs enum
      = (.ok out, false, tried) → out.answer_text ≠ "") ∧
  (∀ out tried,
    tab_ask_dispatch call model vs_id system userq status lat msgs enum
      = (.ok out, true, tried) →
    harvestMsgs msgs = .ok out.answer_text ∧
    out.file_ids = extract_file_ids_from_messages enum msgs)

/-- C6: the pagination loop requests every page with limit 100, walking the
cursor chain, stops with the first page reporting no more entries, and
returns the concatenation of all pages' entries (in page order) resolved to
display names; each cursor advance goes to the previous page's last entry
identifier (given well-formed pages). -/
def C6Concl (pager : Option String → VsPage)
    (retr : String → Except Unit FileObj) (n : Nat) : Prop :=
  list_vs_files pager retr (n + 1) =
    some ((((List.range (n + 1)).flatMap (fun k => (pageSeq pager k).data)).map
        (fun e => (e.id, resolveName retr e.id))),
      (List.range (n + 1)).map (fun k => (cursorSeq pager k, 100))) ∧
  (∀ k < n, cursorSeq pager (k + 1)
      = ((pageSeq pager k).data.getLast?).map VsFileEntry.id)

/-- C7: the batch loop reports progress `idx/total` after every file,
collects exactly the successful summaries, records an error line naming the
file for exactly the failing files, and processes every file. -/
def C7Concl (files : List (String × String))
    (summ : Nat → String → Except String String) : Prop :=
  (tab_all_batch files summ).progressReports
      = (List.range files.length).map
          (fun i => (((i + 1 : Nat) : ℚ)) / (files.length : ℚ)) ∧
  (tab_all_batch files summ).results_md
      = (files.enumFrom 1).filterMap (fun p =>
          match summ p.1 (perFileQuestion p.2.2) with
          | .ok a => some ("### " ++ p.2.2 ++ "\n\n" ++ a ++ "\n")
          | .error _ => none) ∧
  (tab_all_batch files summ).errors
      = (files.enumFrom 1).filterMap (fun p =>
          match summ p.1 (perFileQuestion p.2.2) with
          | .ok _ => none
          | .error e => some (p.2.2 ++ ": " ++ e)) ∧
  (tab_all_batch files summ).results_md.length
      + (tab_all_batch files summ).errors.length = files.length

/-- C8: the file-name resolution used by `list_vs_files` and
`render_sources` never propagates a lookup failure — on any error it
returns the identifier itself — and otherwise returns the nonempty
filename. -/
def C8Concl (retr : String → Except Unit FileObj) (fid : String) : Prop :=
  (∀ e, retr fid = .error e →
    resolveName retr fid = fid ∧ chipLabel retr fid = fid) ∧
  resolveName retr fid = chipLabel retr fid ∧
  (resolveName retr fid = fid ∨
    ∃ f s, retr fid = .ok f ∧ f.filename = .val s ∧ s ≠ "" ∧
      resolveName retr fid = s)

/-- C9: `render_sources` renders at most the first 10 identifiers and turns
an empty list into the explicit no-citations message. -/
def C9Concl (retr : String → Except Unit FileObj) (ids : List String) : Prop :=
  (ids = [] → render_sources retr ids = ⟨some noCitationsMsg, []⟩) ∧
  (ids ≠ [] → (render_sources retr ids).emptyMsg = none) ∧
  (render_sources retr ids).chips = (ids.take 10).map (chipLabel retr) ∧
  (render_sources retr ids).chips.length = min ids.length 10

/-- C10: a run first observed terminal at poll `k` yields that status's
outcome — never the timeout error — even when the deadline already
elapsed. -/
def C10Concl (status : Nat → String) (lat : Nat → ℚ) (msgs : List Msg)
    (enum : List String → List String) (k : Nat) : Prop :=
  (pollRun status lat).1 = PollResult.terminal k (status k) ∧
  ask_with_assistants status lat msgs enum ≠ .error .timeout ∧
  (status k = "completed" →
    ask_with_assistants status lat msgs enum = harvestResult msgs enum) ∧
  (status k ≠ "completed" →
    ask_with_assistants status lat msgs enum
      = .error (.notCompleted (status k)))

/-- A well-formed annotation citing file `"a"`. -/
def c1AnnA : AnnObj := ⟨Attr.val "file_citation", Attr.val ⟨Attr.val "a"⟩⟩

/-- A well-formed annotation citing file `"b"`. -/
def c1AnnB : AnnObj := ⟨Attr.val "file_citation", Attr.val ⟨Attr.val "b"⟩⟩

/-- A fully well-formed Responses payload citing `"a"` then `"b"`. -/
def c1Resp : RespObj :=
  ⟨Attr.missing,
   Attr.val [⟨Attr.val "message",
     Attr.val ⟨Attr.val [⟨Attr.val "output_text",
       Attr.val [c1AnnA, c1AnnB]⟩]⟩⟩]⟩

/-- A fully well-formed assistant message list citing `"a"` then `"b"`. -/
def c1Msgs : List Msg :=
  [⟨Attr.val "assistant",
    Attr.val [⟨Attr.val "text",
      Attr.val ⟨Attr.missing, Attr.val [c1AnnA, c1AnnB]⟩⟩]⟩]

/-- An annotation of kind `file_citation` whose `file_citation` attribute is
absent: scanning it in `extract_file_ids_from_messages` raises. -/
def c4AnnBad : AnnObj := ⟨Attr.val "file_citation", Attr.missing⟩

/-- A well-formed annotation citing `"f_2"`. -/
def c4AnnGood : AnnObj := ⟨Attr.val "file_citation", Attr.val ⟨Attr.val "f_2"⟩⟩

/-- A message list with a raising annotation followed by a well-formed
citation of `"f_2"`. -/
def c4Msgs : List Msg :=
  [⟨Attr.val "assistant",
    Attr.val [⟨Attr.val "text",
      Attr.val ⟨Attr.missing, Attr.val [c4AnnBad, c4AnnGood]⟩⟩]⟩]

/-- A primary-protocol oracle whose first shape fails and whose later
shapes succeed with an empty response. -/
def c2Resp : RespObj := ⟨Attr.pyNone, Attr.pyNone⟩

/-- Oracle: shape 1 raises, shapes 2 and 3 succeed. -/
def c2Call : Shape → PrimReq → Except String RespObj :=
  fun s _ =>
    match s with
    | .fileSearchTop => .error "unsupported"
    | _ => .ok c2Resp

/-- A primary-protocol oracle for which every shape raises. -/
def c5CallFail : Shape → PrimReq → Except String RespObj :=
  fun _ _ => .error "boom"

/-- A primary-protocol oracle for which every shape succeeds. -/
def callOkW : Shape → PrimReq → Except String RespObj :=
  fun _ _ => .ok c2Resp

/-- A run that is already `completed` at the first poll. -/
def statusCompleted : Nat → String := fun _ => "completed"

/-- Zero retrieval latency. -/
def latZero : Nat → ℚ := fun _ => 0

/-- A first retrieval that takes 400 time-units — past the 360-unit
deadline. -/
def lat400 : Nat → ℚ := fun _ => 400

/-- A two-page listing: page 1 has entries `f1`, `f2` and more to come;
page 2 has entry `f3` and no more. -/
def pagerW : Option String → VsPage :=
  fun c =>
    match c with
    | none => ⟨[⟨"f1"⟩, ⟨"f2"⟩], true, some "f2"⟩
    | some _ => ⟨[⟨"f3"⟩], false, some "f3"⟩

/-- A file-lookup oracle that always fails. -/
def retrErr : String → Except Unit FileObj := fun _ => .error ()

/-- Twelve citation identifiers, to exercise the 10-chip cap. -/
def idsTwelve : List String :=
  ["1", "2", "3", "4", "5", "6", "7", "8", "9", "10", "11", "12"]

theorem mem_addFid {acc : List String} {x y : String} :
    y ∈ addFid acc x ↔ y ∈ acc ∨ y = x := by
  unfold addFid
  by_cases h : x ∈ acc
  · simp only [if_pos h]
    exact ⟨Or.inl, fun hy => hy.elim id (fun e => e ▸ h)⟩
  · simp [if_neg h]

theorem nodup_addFid {acc : List String} (h : acc.Nodup) (x : String) :
    (addFid acc x).Nodup := by
  unfold addFid
  by_cases hx : x ∈ acc
  · simpa [if_pos hx]
  · simp [if_neg hx, List.nodup_append, h, hx]

theorem mem_foldl_addFid (l : List String) :
    ∀ (acc : List String) (y : String),
      y ∈ l.foldl addFid acc ↔ y ∈ acc ∨ y ∈ l := by
  induction l with
  | nil => simp
  | cons x xs ih =>
    intro acc y
    simp only [List.foldl_cons, ih, mem_addFid, List.mem_cons]
    tauto

theorem nodup_foldl_addFid (l : List String) :
    ∀ acc : List String, acc.Nodup → (l.foldl addFid acc).Nodup := by
  induction l with
  | nil => intro acc h; simpa
  | cons x xs ih => intro acc h; exact ih _ (nodup_addFid h x)

theorem nodup_dedupFirst (l : List String) : (dedupFirst l).Nodup :=
  nodup_foldl_addFid l [] List.nodup_nil

theorem mem_dedupFirst {l : List String} {y : String} :
    y ∈ dedupFirst l ↔ y ∈ l := by
  simp [dedupFirst, mem_foldl_addFid]

theorem flatMap_optToList {β : Type} (f : β → Option String) :
    ∀ l : List β, (l.flatMap fun b => (f b).toList) = l.filterMap f := by
  intro l
  induction l with
  | nil => rfl
  | cons b bs ih => cases h : f b <;> simp [List.filterMap_cons, h, ih]

theorem foldE_ok {β : Type} (raises : β → Bool) (g : β → List String)
    (step : List String → β → Except (List String) (List String))
    (hstep : ∀ acc b, raises b = false → step acc b = .ok ((g b).foldl addFid acc)) :
    ∀ (l : List β) (acc : List String), (∀ b ∈ l, raises b = false) →
      foldE step acc l = .ok ((l.flatMap g).foldl addFid acc) := by
  intro l
  induction l with
  | nil => intro acc _; rfl
  | cons b bs ih =>
    intro acc hall
    simp only [foldE]
    rw [hstep acc b (hall b (List.mem_cons_self b bs))]
    show foldE step (List.foldl addFid acc (g b)) bs
      = Except.ok (List.foldl addFid acc ((b :: bs).flatMap g))
    rw [ih _ (fun x hx => hall x (List.mem_cons_of_mem b hx))]
    rw [List.flatMap_cons, List.foldl_append]

theorem foldE_payload {β : Type} (g : β → List String)
    (step : List String → β → Except (List String) (List String))
    (hstep : ∀ acc b, (∀ y ∈ exVal (step acc b), y ∈ acc ∨ y ∈ g b) ∧
                      (acc.Nodup → (exVal (step acc b)).Nodup)) :
    ∀ (l : List β) (acc : List String),
      (∀ y ∈ exVal (foldE step acc l), y ∈ acc ∨ ∃ b ∈ l, y ∈ g b) ∧
      (acc.Nodup → (exVal (foldE step acc l)).Nodup) := by
  intro l
  induction l with
  | nil =>
    intro acc
    refine ⟨fun y hy => Or.inl ?_, fun h => ?_⟩
    · simpa [foldE, exVal] using hy
    · simpa [foldE, exVal]
  | cons b bs ih =>
    intro acc
    have h1 := hstep acc b
    cases hs : step acc b with
    | error a =>
      rw [hs] at h1
      refine ⟨fun y hy => ?_, fun hn => ?_⟩
      · have hy' : y ∈ a := by simpa [foldE, hs, exVal] using hy
        rcases h1.1 y (by simpa [exVal] using hy') with h | h
        · exact Or.inl h
        · exact Or.inr ⟨b, List.mem_cons_self b bs, h⟩
      · have := h1.2 hn
        simpa [foldE, hs, exVal] using this
    | ok a =>
      rw [hs] at h1
      have h2 := ih a
      refine ⟨fun y hy => ?_, fun hn => ?_⟩
      · have hy' : y ∈ exVal (foldE step a bs) := by simpa [foldE, hs] using hy
        rcases h2.1 y hy' with h | ⟨b', hb', h⟩
        · rcases h1.1 y (by simpa [exVal] using h) with h' | h'
          · exact Or.inl h'
          · exact Or.inr ⟨b, List.mem_cons_self b bs, h'⟩
        · exact Or.inr ⟨b', List.mem_cons_of_mem _ hb', h⟩
      · have := h2.2 (by simpa [exVal] using h1.2 hn)
        simpa [foldE, hs] using this

theorem annStep_eq (acc : List String) (ann : AnnObj) :
    annStep acc ann = ((annSpecId ann).toList).foldl addFid acc := by
  rcases ann with ⟨ty, fcit⟩
  cases ty with
  | missing => simp [annStep, annSpecId, attrOrNone]
  | pyNone => simp [annStep, annSpecId, attrOrNone]
  | val tyv =>
    by_cases h : tyv = "file_citation"
    · subst h
      cases fcit with
      | missing => simp [annStep, annSpecId, attrOrNone]
      | pyNone => simp [annStep, annSpecId, attrOrNone]
      | val fc =>
        rcases fc with ⟨fidA⟩
        cases fidA with
        | missing => simp [annStep, annSpecId, attrOrNone]
        | pyNone => simp [annStep, annSpecId, attrOrNone]
        | val fid =>
          by_cases hf : fid = "" <;>
            simp [annStep, annSpecId, attrOrNone, hf]
    · simp [annStep, annSpecId, attrOrNone, h]

theorem annFold (anns : List AnnObj) :
    ∀ acc, anns.foldl annStep acc = (anns.filterMap annSpecId).foldl addFid acc := by
  induction anns with
  | nil => intro acc; rfl
  | cons a as ih =>
    intro acc
    rw [List.foldl_cons, annStep_eq, ← flatMap_optToList annSpecId,
      List.flatMap_cons, List.foldl_append, ih, flatMap_optToList]

theorem itemStepResp_eq (acc : List String) (c : ContentItem) :
    itemStepResp acc c = (itemSpecIdsResp c).foldl addFid acc := by
  unfold itemStepResp itemSpecIdsResp
  by_cases h : attrOrNone c.type = some "output_text"
  · simp only [if_pos h]; exact annFold _ _
  · simp [if_neg h]

theorem itemFoldResp (items : List ContentItem) :
    ∀ acc, items.foldl itemStepResp acc
      = (items.flatMap itemSpecIdsResp).foldl addFid acc := by
  induction items with
  | nil => intro acc; rfl
  | cons c cs ih =>
    intro acc
    rw [List.foldl_cons, itemStepResp_eq, List.flatMap_cons, List.foldl_append, ih]

theorem blockStep_ok {b : RBlock} (h : blockRaisesB b = false) (acc : List String) :
    blockStep acc b = .ok ((blockSpecIds b).foldl addFid acc) := by
  rcases b with ⟨ty, msg⟩
  cases ty with
  | missing => simp [blockRaisesB] at h
  | pyNone => simp [blockStep, blockSpecIds, attrOrNone]
  | val t =>
    by_cases ht : t = "message"
    · subst ht
      cases msg with
      | missing => simp [blockRaisesB] at h
      | pyNone => simp [blockRaisesB] at h
      | val m =>
        rcases m with ⟨c⟩
        cases c with
        | missing => simp [blockRaisesB] at h
        | pyNone => simp [blockStep, blockSpecIds, attrOrNone, attrList]
        | val items =>
          simp [blockStep, blockSpecIds, attrOrNone, attrList, itemFoldResp]
    · simp [blockStep, blockSpecIds, attrOrNone, ht]

theorem blockStep_err {b : RBlock} (h : blockRaisesB b = true) (acc : List String) :
    blockStep acc b = .error acc := by
  rcases b with ⟨ty, msg⟩
  cases ty with
  | missing => rfl
  | pyNone => simp [blockRaisesB] at h
  | val t =>
    by_cases ht : t = "message"
    · subst ht
      cases msg with
      | missing => rfl
      | pyNone => rfl
      | val m =>
        rcases m with ⟨c⟩
        cases c with
        | missing => rfl
        | pyNone => simp [blockRaisesB] at h
        | val items => simp [blockRaisesB] at h
    · simp [blockRaisesB, ht] at h

theorem exVal_blockStep (acc : List String) (b : RBlock) :
    (∀ y ∈ exVal (blockStep acc b), y ∈ acc ∨ y ∈ blockSpecIds b) ∧
    (acc.Nodup → (exVal (blockStep acc b)).Nodup) := by
  cases h : blockRaisesB b
  · rw [blockStep_ok h]
    refine ⟨fun y hy => ?_, fun hn => ?_⟩
    · exact (mem_foldl_addFid _ _ _).1 (by simpa [exVal] using hy) |>.symm.imp id id |>.symm
    · simpa [exVal] using nodup_foldl_addFid _ _ hn
  · rw [blockStep_err h]
    exact ⟨fun y hy => Or.inl (by simpa [exVal] using hy), fun hn => by simpa [exVal]⟩

theorem respIdsCore_eq {resp : RespObj} (h : respScanOkB resp = true) :
    respIdsCore resp = dedupFirst (respSpecIds resp) := by
  rcases resp with ⟨ot, outp⟩
  cases outp with
  | missing => simp [respIdsCore, respSpecIds, attrList, dedupFirst]
  | pyNone => simp [respIdsCore, respSpecIds, attrList, dedupFirst]
  | val blocks =>
    have hall : ∀ b ∈ blocks, blockRaisesB b = false := by
      intro b hb
      have h' : blocks.all (fun b => !blockRaisesB b) = true := by
        simpa [respScanOkB] using h
      simpa using List.all_eq_true.1 h' b hb
    have hcore : respIdsCore ⟨ot, Attr.val blocks⟩
        = exVal (foldE blockStep [] blocks) := rfl
    rw [hcore, foldE_ok blockRaisesB blockSpecIds blockStep
      (fun acc b hb => blockStep_ok hb acc) blocks [] hall]
    simp [exVal, respSpecIds, attrList, dedupFirst]

theorem respIdsCore_sub (resp : RespObj) :
    ∀ y ∈ respIdsCore resp, y ∈ respSpecIds resp := by
  rcases resp with ⟨ot, outp⟩
  cases outp with
  | missing => intro y hy; simp [respIdsCore] at hy
  | pyNone => intro y hy; simp [respIdsCore] at hy
  | val blocks =>
    intro y hy
    have hy' : y ∈ exVal (foldE blockStep [] blocks) := hy
    have := (foldE_payload blockSpecIds blockStep
      exVal_blockStep blocks []).1 y hy'
    rcases this with h | ⟨b, hb, h⟩
    · simp at h
    · show y ∈ (attrList (Attr.val blocks)).flatMap blockSpecIds
      exact List.mem_flatMap.2 ⟨b, hb, h⟩

theorem respIdsCore_nodup (resp : RespObj) : (respIdsCore resp).Nodup := by
  rcases resp with ⟨ot, outp⟩
  cases outp with
  | missing => simp [respIdsCore]
  | pyNone => simp [respIdsCore]
  | val blocks =>
    exact (foldE_payload blockSpecIds blockStep
      exVal_blockStep blocks []).2 List.nodup_nil

theorem annStepMsgs_ok {ann : AnnObj} (h : annRaisesB ann = false)
    (acc : List String) :
    annStepMsgs acc ann = .ok (((annSpecId ann).toList).foldl addFid acc) := by
  rcases ann with ⟨ty, fcit⟩
  cases ty with
  | missing => simp [annStepMsgs, annSpecId, attrOrNone]
  | pyNone => simp [annStepMsgs, annSpecId, attrOrNone]
  | val tyv =>
    by_cases ht : tyv = "file_citation"
    · subst ht
      cases fcit with
      | missing => simp [annRaisesB, attrOrNone] at h
      | pyNone => simp [annStepMsgs, annSpecId, attrOrNone]
      | val fc =>
        rcases fc with ⟨fidA⟩
        cases fidA with
        | missing => simp [annStepMsgs, annSpecId, attrOrNone]
        | pyNone => simp [annStepMsgs, annSpecId, attrOrNone]
        | val fid =>
          by_cases hf : fid = "" <;>
            simp [annStepMsgs, annSpecId, attrOrNone, hf]
    · simp [annStepMsgs, annSpecId, attrOrNone, ht]

theorem annStepMsgs_err {ann : AnnObj} (h : annRaisesB ann = true)
    (acc : List String) : annStepMsgs acc ann = .error acc := by
  rcases ann with ⟨ty, fcit⟩
  cases ty with
  | missing => simp [annRaisesB, attrOrNone] at h
  | pyNone => simp [annRaisesB, attrOrNone] at h
  | val tyv =>
    by_cases ht : tyv = "file_citation"
    · subst ht
      cases fcit with
      | missing => simp [annStepMsgs, attrOrNone]
      | pyNone => simp [annRaisesB, attrOrNone] at h
      | val fc => simp [annRaisesB, attrOrNone] at h
    · simp [annRaisesB, attrOrNone, ht] at h

theorem exVal_annStepMsgs (acc : List String) (ann : AnnObj) :
    (∀ y ∈ exVal (annStepMsgs acc ann), y ∈ acc ∨ y ∈ (annSpecId ann).toList) ∧
    (acc.Nodup → (exVal (annStepMsgs acc ann)).Nodup) := by
  cases h : annRaisesB ann
  · rw [annStepMsgs_ok h]
    refine ⟨fun y hy => ?_, fun hn => ?_⟩
    · exact (mem_foldl_addFid _ _ _).1 (by simpa [exVal] using hy)
    · simpa [exVal] using nodup_foldl_addFid _ _ hn
  · rw [annStepMsgs_err h]
    exact ⟨fun y hy => Or.inl (by simpa [exVal] using hy),
      fun hn => by simpa [exVal]⟩

theorem itemStepMsgs_ok {item : MsgItem} (h : itemRaisesB item = false)
    (acc : List String) :
    itemStepMsgs acc item = .ok ((itemSpecIdsMsgs item).foldl addFid acc) := by
  rcases item with ⟨ty, tx⟩
  cases ty with
  | missing => simp [itemStepMsgs, itemSpecIdsMsgs, attrOrNone]
  | pyNone => simp [itemStepMsgs, itemSpecIdsMsgs, attrOrNone]
  | val tyv =>
    by_cases ht : tyv = "text"
    · subst ht
      cases tx with
      | missing => simp [itemRaisesB, attrOrNone] at h
      | pyNone => simp [itemStepMsgs, itemSpecIdsMsgs, attrOrNone]
      | val t =>
        have hall : ∀ a ∈ attrList t.annotations, annRaisesB a = false := by
          intro a ha
          have h' : (attrList t.annotations).any annRaisesB = false := by
            simpa [itemRaisesB, attrOrNone] using h
          simpa using List.any_eq_false.1 h' a ha
        have h1 : itemStepMsgs acc ⟨Attr.val "text", Attr.val t⟩
            = foldE annStepMsgs acc (attrList t.annotations) := by
          simp [itemStepMsgs, attrOrNone]
        rw [h1, foldE_ok annRaisesB (fun a => (annSpecId a).toList) annStepMsgs
          (fun acc a ha => annStepMsgs_ok ha acc) _ acc hall]
        simp [itemSpecIdsMsgs, attrOrNone, flatMap_optToList]
    · simp [itemStepMsgs, itemSpecIdsMsgs, attrOrNone, ht]

theorem exVal_itemStepMsgs (acc : List String) (item : MsgItem) :
    (∀ y ∈ exVal (itemStepMsgs acc item), y ∈ acc ∨ y ∈ itemSpecIdsMsgs item) ∧
    (acc.Nodup → (exVal (itemStepMsgs acc item)).Nodup) := by
  rcases item with ⟨ty, tx⟩
  cases ty with
  | missing =>
    simp only [itemStepMsgs, attrOrNone]
    exact ⟨fun y hy => Or.inl (by simpa [exVal] using hy),
      fun hn => by simpa [exVal]⟩
  | pyNone =>
    simp only [itemStepMsgs, attrOrNone]
    exact ⟨fun y hy => Or.inl (by simpa [exVal] using hy),
      fun hn => by simpa [exVal]⟩
  | val tyv =>
    by_cases ht : tyv = "text"
    · subst ht
      cases tx with
      | missing =>
        have h1 : itemStepMsgs acc ⟨Attr.val "text", Attr.missing⟩
            = .error acc := by simp [itemStepMsgs, attrOrNone]
        rw [h1]
        exact ⟨fun y hy => Or.inl (by simpa [exVal] using hy),
          fun hn => by simpa [exVal]⟩
      | pyNone =>
        have h1 : itemStepMsgs acc ⟨Attr.val "text", Attr.pyNone⟩
            = .ok acc := by simp [itemStepMsgs, attrOrNone]
        rw [h1]
        exact ⟨fun y hy => Or.inl (by simpa [exVal] using hy),
          fun hn => by simpa [exVal]⟩
      | val t =>
        have h1 : itemStepMsgs acc ⟨Attr.val "text", Attr.val t⟩
            = foldE annStepMsgs acc (attrList t.annotations) := by
          simp [itemStepMsgs, attrOrNone]
        rw [h1]
        have hp := foldE_payload (fun a => (annSpecId a).toList) annStepMsgs
          exVal_annStepMsgs (attrList t.annotations) acc
        refine ⟨fun y hy => ?_, hp.2⟩
        rcases hp.1 y hy with h | ⟨a, ha, h⟩
        · exact Or.inl h
        · refine Or.inr ?_
          have hs : annSpecId a = some y := by
            rcases hv : annSpecId a with _ | v
            · rw [hv] at h; simp at h
            · rw [hv] at h; simp at h; rw [h]
          have : y ∈ (attrList t.annotations).filterMap annSpecId :=
            List.mem_filterMap.2 ⟨a, ha, hs⟩
          simpa [itemSpecIdsMsgs, attrOrNone] using this
    · simp only [itemStepMsgs, itemSpecIdsMsgs, attrOrNone]
      rw [if_neg (by simpa using ht)]
      exact ⟨fun y hy => Or.inl (by simpa [exVal] using hy),
        fun hn => by simpa [exVal]⟩

theorem msgStep_ok {m : Msg} (h : msgRaisesB m = false) (acc : List String) :
    msgStep acc m = .ok ((msgSpecIds m).foldl addFid acc) := by
  rcases m with ⟨r, c⟩
  cases r with
  | missing => simp [msgStep, msgSpecIds, attrOrNone]
  | pyNone => simp [msgStep, msgSpecIds, attrOrNone]
  | val rv =>
    by_cases hr : rv = "assistant"
    · subst hr
      cases c with
      | missing => simp [msgRaisesB] at h
      | pyNone => simp [msgStep, msgSpecIds, attrOrNone, attrList]
      | val items =>
        have hall : ∀ it ∈ items, itemRaisesB it = false := by
          intro it hit
          have h' : items.any itemRaisesB = false := by
            simpa [msgRaisesB] using h
          simpa using List.any_eq_false.1 h' it hit
        have h1 : msgStep acc ⟨Attr.val "assistant", Attr.val items⟩
            = foldE itemStepMsgs acc items := by simp [msgStep]
        rw [h1, foldE_ok itemRaisesB itemSpecIdsMsgs itemStepMsgs
          (fun acc it hit => itemStepMsgs_ok hit acc) items acc hall]
        simp [msgSpecIds, attrOrNone, attrList]
    · simp [msgStep, msgSpecIds, attrOrNone, hr]

theorem exVal_msgStep (acc : List String) (m : Msg) :
    (∀ y ∈ exVal (msgStep acc m), y ∈ acc ∨ y ∈ msgSpecIds m) ∧
    (acc.Nodup → (exVal (msgStep acc m)).Nodup) := by
  rcases m with ⟨r, c⟩
  cases r with
  | missing =>
    simp only [msgStep]
    rw [if_neg (by simp)]
    exact ⟨fun y hy => Or.inl (by simpa [exVal] using hy),
      fun hn => by simpa [exVal]⟩
  | pyNone =>
    simp only [msgStep]
    rw [if_neg (by simp)]
    exact ⟨fun y hy => Or.inl (by simpa [exVal] using hy),
      fun hn => by simpa [exVal]⟩
  | val rv =>
    by_cases hr : rv = "assistant"
    · subst hr
      cases c with
      | missing =>
        have h1 : msgStep acc ⟨Attr.val "assistant", Attr.missing⟩
            = .error acc := by simp [msgStep]
        rw [h1]
        exact ⟨fun y hy => Or.inl (by simpa [exVal] using hy),
          fun hn => by simpa [exVal]⟩
      | pyNone =>
        have h1 : msgStep acc ⟨Attr.val "assistant", Attr.pyNone⟩
            = .ok acc := by simp [msgStep]
        rw [h1]
        exact ⟨fun y hy => Or.inl (by simpa [exVal] using hy),
          fun hn => by simpa [exVal]⟩
      | val items =>
        have h1 : msgStep acc ⟨Attr.val "assistant", Attr.val items⟩
            = foldE itemStepMsgs acc items := by simp [msgStep]
        rw [h1]
        have hp := foldE_payload itemSpecIdsMsgs itemStepMsgs
          exVal_itemStepMsgs items acc
        refine ⟨fun y hy => ?_, hp.2⟩
        rcases hp.1 y hy with h | ⟨it, hit, h⟩
        · exact Or.inl h
        · refine Or.inr ?_
          have : y ∈ items.flatMap itemSpecIdsMsgs :=
            List.mem_flatMap.2 ⟨it, hit, h⟩
          simpa [msgSpecIds, attrOrNone, attrList] using this
    · simp only [msgStep]
      rw [if_neg (by simpa using hr)]
      exact ⟨fun y hy => Or.inl (by simpa [exVal] using hy),
        fun hn => by simpa [exVal]⟩

theorem msgsIdsCore_eq {msgs : List Msg} (h : msgsScanOkB msgs = true) :
    msgsIdsCore msgs = dedupFirst (msgsSpecIds msgs) := by
  have hall : ∀ m ∈ msgs, msgRaisesB m = false := by
    intro m hm
    simpa using List.all_eq_true.1 h m hm
  unfold msgsIdsCore
  rw [foldE_ok msgRaisesB msgSpecIds msgStep
    (fun acc m hm => msgStep_ok hm acc) msgs [] hall]
  simp [exVal, msgsSpecIds, dedupFirst]

theorem msgsIdsCore_sub (msgs : List Msg) :
    ∀ y ∈ msgsIdsCore msgs, y ∈ msgsSpecIds msgs := by
  intro y hy
  have := (foldE_payload msgSpecIds msgStep
    exVal_msgStep msgs []).1 y hy
  rcases this with h | ⟨m, hm, h⟩
  · simp at h
  · exact List.mem_flatMap.2 ⟨m, hm, h⟩

theorem msgsIdsCore_nodup (msgs : List Msg) : (msgsIdsCore msgs).Nodup :=
  (foldE_payload msgSpecIds msgStep
    exVal_msgStep msgs []).2 List.nodup_nil

theorem sleepSched_ge (k : Nat) : (3 / 4 : ℚ) ≤ sleepSched k := by
  induction k with
  | zero => norm_num [sleepSched]
  | succ k ih =>
    rw [sleepSched]
    refine le_min ?_ (by norm_num)
    nlinarith

theorem sleepSched_closed (j : Nat) :
    sleepSched j = min ((3 / 4 : ℚ) * (3 / 2) ^ j) 6 := by
  induction j with
  | zero => norm_num [sleepSched]
  | succ j ih =>
    rw [sleepSched, ih,
      min_mul_of_nonneg _ _ (by norm_num : (0 : ℚ) ≤ 3 / 2)]
    have h1 : (3 / 4 : ℚ) * (3 / 2) ^ j * (3 / 2) = 3 / 4 * (3 / 2) ^ (j + 1) := by
      ring
    have h2 : (6 : ℚ) * (3 / 2) = 9 := by norm_num
    rw [h1, h2, min_assoc, min_eq_right (by norm_num : (6 : ℚ) ≤ 9)]

theorem tBefore_succ (lat : Nat → ℚ) (k : Nat) :
    tBefore lat (k + 1) = tBefore lat k + lat k + sleepSched k := by
  simp only [tBefore, Finset.sum_range_succ]
  ring

theorem pollAux_spec (status : Nat → String) (lat : Nat → ℚ)
    (hlat : ∀ j, 0 ≤ lat j) :
    ∀ (fuel k : Nat), 1 ≤ fuel →
      (360 : ℚ) < tBefore lat k + (3 / 4) * ((fuel : ℚ) - 1) →
      ∃ n, (∀ j, k ≤ j → j < k + n →
              isTerminal (status j) = false ∧ tPoll lat j ≤ 360) ∧
        pollAux status lat fuel k (tBefore lat k) (sleepSched k) =
          ((if isTerminal (status (k + n)) = true then
              PollResult.terminal (k + n) (status (k + n))
            else PollResult.timeout (k + n)),
           (List.range' k n).map sleepSched) ∧
        (isTerminal (status (k + n)) = false → 360 < tPoll lat (k + n)) := by
  intro fuel
  induction fuel with
  | zero => intro k hone; omega
  | succ fuel ih =>
    intro k _ hfuel
    by_cases hterm : isTerminal (status k) = true
    · refine ⟨0, fun j h1 h2 => by omega, ?_, ?_⟩
      · simp [pollAux, hterm]
      · intro h; rw [Nat.add_zero] at h; rw [hterm] at h; cases h
    · by_cases hdl : (360 : ℚ) < tBefore lat k + lat k
      · refine ⟨0, fun j h1 h2 => by omega, ?_, ?_⟩
        · simp [pollAux, hterm, hdl]
        · intro _
          rw [Nat.add_zero]
          simpa [tPoll] using hdl
      · push_neg at hdl
        have hterm' : isTerminal (status k) = false := by simpa using hterm
        have hcast : (360 : ℚ) < tBefore lat k + 3 / 4 * (fuel : ℚ) := by
          have : ((fuel + 1 : Nat) : ℚ) - 1 = (fuel : ℚ) := by push_cast; ring
          rwa [this] at hfuel
        have hfuel1 : 1 ≤ fuel := by
          by_contra hf
          have hf0 : fuel = 0 := by omega
          subst hf0
          have h3 := hlat k
          simp at hcast
          linarith
        have hfuel' : (360 : ℚ) < tBefore lat (k + 1) + 3 / 4 * ((fuel : ℚ) - 1) := by
          have h1 := tBefore_succ lat k
          have h2 := sleepSched_ge k
          have h3 := hlat k
          rw [h1]
          linarith
        obtain ⟨n, hpre, heq, hlast⟩ := ih (k + 1) hfuel1 hfuel'
        have hshift : k + 1 + n = k + (n + 1) := by omega
        refine ⟨n + 1, ?_, ?_, ?_⟩
        · intro j h1 h2
          rcases Nat.eq_or_lt_of_le h1 with rfl | hlt
          · exact ⟨hterm', by simpa [tPoll] using hdl⟩
          · exact hpre j hlt (by omega)
        · have hstep : pollAux status lat (fuel + 1) k (tBefore lat k) (sleepSched k)
              = ((pollAux status lat fuel (k + 1) (tBefore lat (k + 1))
                    (sleepSched (k + 1))).1,
                 sleepSched k ::
                   (pollAux status lat fuel (k + 1) (tBefore lat (k + 1))
                    (sleepSched (k + 1))).2) := by
            rw [pollAux]
            simp only [hterm', Bool.false_eq_true, if_false,
              not_lt.2 hdl, if_neg (not_lt.2 hdl)]
            rw [tBefore_succ lat k]
            rfl
          rw [hstep, heq, hshift]
          simp [List.range'_succ]
        · intro h
          rw [← hshift] at h ⊢
          exact hlast h

theorem pollRun_spec (status : Nat → String) (lat : Nat → ℚ)
    (hlat : ∀ j, 0 ≤ lat j) :
    ∃ n, (∀ j < n, isTerminal (status j) = false ∧ tPoll lat j ≤ 360) ∧
      pollRun status lat =
        ((if isTerminal (status n) = true then
            PollResult.terminal n (status n)
          else PollResult.timeout n),
         (List.range n).map sleepSched) ∧
      (isTerminal (status n) = false → 360 < tPoll lat n) := by
  have h0 : tBefore lat 0 = 0 := by simp [tBefore]
  have hb : (360 : ℚ) < tBefore lat 0 + (3 / 4) * ((482 : ℚ) - 1) := by
    rw [h0]; norm_num
  have hmain := pollAux_spec status lat hlat 482 0 (by norm_num)
    (by exact_mod_cast hb)
  obtain ⟨n, hpre, heq, hlast⟩ := hmain
  rw [h0] at heq
  have hs0 : sleepSched 0 = 3 / 4 := rfl
  rw [hs0] at heq
  refine ⟨n, fun j hj => hpre j (Nat.zero_le j) (by omega), ?_, ?_⟩
  · show pollAux status lat 482 0 0 (3 / 4) = _
    rw [heq]
    simp [List.range_eq_range']
  · simpa using hlast

theorem ask_with_assistants_ok {status : Nat → String} {lat : Nat → ℚ}
    {msgs : List Msg} {enum : List String → List String} {out : AsstOut}
    (h : ask_with_assistants status lat msgs enum = .ok out) :
    harvestMsgs msgs = .ok out.output_text ∧
    out.file_ids = extract_file_ids_from_messages enum msgs := by
  unfold ask_with_assistants at h
  cases hp : (pollRun status lat).1 with
  | terminal k s =>
    simp only [hp] at h
    by_cases hc : s = "completed"
    · rw [if_pos hc] at h
      unfold harvestResult at h
      cases hh : harvestMsgs msgs with
      | error e => rw [hh] at h; cases h
      | ok a =>
        rw [hh] at h
        injection h with h2
        subst h2
        exact ⟨rfl, rfl⟩
    · rw [if_neg hc] at h; cases h
  | timeout k => simp only [hp] at h; cases h
  | fuelOut => simp only [hp] at h; cases h

theorem pageSeqFrom_succ (pager : Option String → VsPage)
    (c : Option String) (k : Nat) :
    pageSeqFrom pager c (k + 1) = pageSeqFrom pager (pager c).last_id k := rfl

theorem cursorSeqFrom_succ (pager : Option String → VsPage)
    (c : Option String) (k : Nat) :
    cursorSeqFrom pager c (k + 1)
      = cursorSeqFrom pager (pager c).last_id k := rfl

theorem lvfLoop_spec (pager : Option String → VsPage) :
    ∀ (n : Nat) (after : Option String) (acc : List VsFileEntry)
      (calls : List (Option String × Nat)),
      (∀ k < n, (pageSeqFrom pager after k).has_more = true) →
      (pageSeqFrom pager after n).has_more = false →
      lvfLoop pager (n + 1) after acc calls =
        some (acc ++ (List.range (n + 1)).flatMap
                (fun k => (pageSeqFrom pager after k).data),
              calls ++ (List.range (n + 1)).map
                (fun k => (cursorSeqFrom pager after k, 100))) := by
  intro n
  induction n with
  | zero =>
    intro after acc calls hmore hstop
    have hstop' : (pager after).has_more = false := hstop
    have hr1 : List.range 1 = [0] := by decide
    simp [lvfLoop, hstop', pageSeqFrom, cursorSeqFrom, hr1]
  | succ n ih =>
    intro after acc calls hmore hstop
    have h0 : (pager after).has_more = true := hmore 0 (Nat.succ_pos n)
    have hrec := ih (pager after).last_id (acc ++ (pager after).data)
      (calls ++ [(after, 100)])
      (fun k hk => hmore (k + 1) (by omega)) hstop
    rw [lvfLoop, if_pos h0, hrec]
    have hdata : (List.range (n + 1 + 1)).flatMap
        (fun k => (pageSeqFrom pager after k).data)
        = (pager after).data ++ (List.range (n + 1)).flatMap
            (fun k => (pageSeqFrom pager (pager after).last_id k).data) := by
      rw [List.range_succ_eq_map, List.flatMap_cons]
      congr 1
      rw [List.flatMap_map]
      rfl
    have hcalls : (List.range (n + 1 + 1)).map
        (fun k => (cursorSeqFrom pager after k, 100))
        = (after, 100) :: (List.range (n + 1)).map
            (fun k => (cursorSeqFrom pager (pager after).last_id k, 100)) := by
      rw [List.range_succ_eq_map, List.map_cons]
      congr 1
      rw [List.map_map]
      rfl
    rw [hdata, hcalls]
    simp [List.append_assoc]

theorem batchGo_spec (summ : Nat → String → Except String String)
    (total : ℚ) :
    ∀ (files : List (String × String)) (idx : Nat),
      batchGo summ total idx files =
        ⟨(files.enumFrom idx).filterMap (fun p =>
            match summ p.1 (perFileQuestion p.2.2) with
            | .ok a => some ("### " ++ p.2.2 ++ "\n\n" ++ a ++ "\n")
            | .error _ => none),
          (files.enumFrom idx).filterMap (fun p =>
            match summ p.1 (perFileQuestion p.2.2) with
            | .ok _ => none
            | .error e => some (p.2.2 ++ ": " ++ e)),
          (List.range files.length).map
            (fun i => (((idx + i : Nat) : ℚ)) / total)⟩ := by
  intro files
  induction files with
  | nil => intro idx; rfl
  | cons f rest ih =>
    intro idx
    rcases f with ⟨fid, fname⟩
    simp only [batchGo, ih]
    have hprog : (List.range (rest.length + 1)).map
        (fun i => (((idx + i : Nat) : ℚ)) / total)
        = ((idx : ℚ) / total) :: (List.range rest.length).map
            (fun i => (((idx + 1 + i : Nat) : ℚ)) / total) := by
      rw [List.range_succ_eq_map, List.map_cons, List.map_map]
      have htail : List.map
          ((fun i => ((idx + i : Nat) : ℚ) / total) ∘ Nat.succ)
          (List.range rest.length)
          = List.map (fun i => ((idx + 1 + i : Nat) : ℚ) / total)
              (List.range rest.length) := by
        refine List.map_congr_left ?_
        intro i hi
        simp only [Function.comp_apply]
        push_cast
        ring_nf
      rw [htail]
      simp
    cases h : summ idx (perFileQuestion fname) with
    | ok a =>
      simp only [List.enumFrom, List.filterMap_cons, h, List.length_cons,
        hprog]
    | error e =>
      simp only [List.enumFrom, List.filterMap_cons, h, List.length_cons,
        hprog]

theorem respAnswerText_ne (resp : RespObj) : respAnswerText resp ≠ "" := by
  unfold respAnswerText
  cases resp.output_text with
  | val s => by_cases hs : s = "" <;> simp [hs]
  | missing => simp
  | pyNone => simp

theorem tab_ask_dispatch_eq (call : Shape → PrimReq → Except String RespObj)
    (model vs_id system userq : String) (status : Nat → String)
    (lat : Nat → ℚ) (msgs : List Msg) (enum : List String → List String)
    {res : Except String RespObj} {tr : List Shape}
    (hr : ask_with_responses call model vs_id system userq = (res, tr)) :
    tab_ask_dispatch call model vs_id system userq status lat msgs enum =
      match res with
      | .ok resp =>
        (.ok ⟨respAnswerText resp, extract_file_ids_from_responses enum resp⟩,
          false, tr)
      | .error _ =>
        ((ask_with_assistants status lat msgs enum).map
            (fun r => ⟨r.output_text, r.file_ids⟩),
          true, tr) := by
  unfold tab_ask_dispatch
  simp only [hr]
  cases res <;> rfl

/-- C1 counterexample: the claim "the Citation Extractor preserves
first-seen order" is false.  `list(file_ids)` enumerates a Python `set`,
whose iteration order over strings is hash-seed dependent; the reverse of
insertion order is a possible enumeration, and on a payload citing `"a"`
then `"b"` it yields `["b", "a"]`, not the first-seen order `["a", "b"]`. -/
theorem C1_counterexample :
    IsSetEnum List.reverse ∧
    extract_file_ids_from_responses List.reverse c1Resp
      ≠ dedupFirst (respSpecIds c1Resp) :=
  ⟨fun l => List.reverse_perm l, by decide⟩

/-- C1 (amended): for every set enumeration, both extractors return a
duplicate-free list containing exactly the first-seen identifier set (up to
the point any scan aborts) and only identifiers present in genuine
`file_citation` annotations — but in unspecified set-iteration order, not
guaranteed first-seen order. -/
theorem C1_set_order (enum : List String → List String) (h : IsSetEnum enum)
    (resp : RespObj) (msgs : List Msg) : C1Concl enum resp msgs := by
  have hr := h (respIdsCore resp)
  have hm := h (msgsIdsCore msgs)
  refine ⟨?_, hr, ?_, ?_, hm, ?_⟩
  · exact hr.nodup_iff.mpr (respIdsCore_nodup resp)
  · intro x hx; exact respIdsCore_sub resp x (hr.mem_iff.mp hx)
  · exact hm.nodup_iff.mpr (msgsIdsCore_nodup msgs)
  · intro x hx; exact msgsIdsCore_sub msgs x (hm.mem_iff.mp hx)

/-- C1 witness: the amended statement at the identity enumeration on fully
well-formed concrete payloads. -/
theorem C1_set_order_witness : C1Concl (fun l => l) c1Resp c1Msgs :=
  C1_set_order (fun l => l) (fun l => List.Perm.refl l) c1Resp c1Msgs

/-- C2: the Query Dispatcher attempts the three primary shapes in order
(top-level `file_search`, `tool_resources`, `extra_body`); a later shape
runs only if every earlier one raised; the first success is returned and
later shapes and the secondary protocol are not invoked; the secondary
protocol is invoked if and only if all three shapes raised. -/
theorem C2_shape_fallback (call : Shape → PrimReq → Except String RespObj)
    (model vs_id system userq : String) (status : Nat → String)
    (lat : Nat → ℚ) (msgs : List Msg)
    (enum : List String → List String) :
    C2Concl call model vs_id system userq status lat msgs enum := by
  refine ⟨?_, ?_, ?_, ?_⟩
  · intro r h1
    have hav : ask_with_responses call model vs_id system userq
        = (.ok r, [.fileSearchTop]) := by
      unfold ask_with_responses; rw [h1]
    exact ⟨hav,
      by rw [tab_ask_dispatch_eq call model vs_id system userq status lat
        msgs enum hav]⟩
  · intro e1 r h1 h2
    have hav : ask_with_responses call model vs_id system userq
        = (.ok r, [.fileSearchTop, .toolResources]) := by
      unfold ask_with_responses; rw [h1, h2]
    exact ⟨hav,
      by rw [tab_ask_dispatch_eq call model vs_id system userq status lat
        msgs enum hav]⟩
  · intro e1 e2 r h1 h2 h3
    have hav : ask_with_responses call model vs_id system userq
        = (.ok r, [.fileSearchTop, .toolResources, .extraBody]) := by
      unfold ask_with_responses; rw [h1, h2, h3]
    exact ⟨hav,
      by rw [tab_ask_dispatch_eq call model vs_id system userq status lat
        msgs enum hav]⟩
  · intro e1 e2 e3 h1 h2 h3
    have hav : ask_with_responses call model vs_id system userq
        = (.error e3, [.fileSearchTop, .toolResources, .extraBody]) := by
      unfold ask_with_responses; rw [h1, h2, h3]
    exact ⟨hav,
      by rw [tab_ask_dispatch_eq call model vs_id system userq status lat
        msgs enum hav]⟩

/-- C2 witness: with shape 1 raising and shape 2 succeeding, the dispatch
returns shape 2's result, attempts exactly shapes 1 and 2, and does not
invoke the secondary protocol. -/
theorem C2_shape_fallback_witness :
    ask_with_responses c2Call "m" "vs" "sys" "q"
      = (.ok c2Resp, [.fileSearchTop, .toolResources]) ∧
    tab_ask_dispatch c2Call "m" "vs" "sys" "q" statusCompleted latZero []
        (fun l => l)
      = (.ok ⟨respAnswerText c2Resp,
          extract_file_ids_from_responses (fun l => l) c2Resp⟩,
         false, [.fileSearchTop, .toolResources]) :=
  (C2_shape_fallback c2Call "m" "vs" "sys" "q" statusCompleted latZero []
    (fun l => l)).2.1 "unsupported" c2Resp rfl rfl

/-- C3: secondary-protocol polling sleeps 0.75·1.5^j time-units (capped at
6.0) before the (j+1)-th poll, runs until a terminal status or the 360-unit
deadline, raises a timeout error distinct from every terminal-status error,
raises `Run did not complete: <status>` on a non-`completed` terminal
status, and proceeds to harvesting only on `completed`. -/
theorem C3_polling (status : Nat → String) (lat : Nat → ℚ)
    (msgs : List Msg) (enum : List String → List String)
    (hlat : ∀ j, 0 ≤ lat j) : C3Concl status lat msgs enum := by
  obtain ⟨n, hp, heq, hl⟩ := pollRun_spec status lat hlat
  have h2 : (pollRun status lat).2 = (List.range n).map sleepSched := by
    rw [heq]
  refine ⟨sleepSched_closed, fun s h => AsstErr.noConfusion h, n, hp, h2,
    ?_, ?_, ?_, ?_⟩
  · by_cases ht : isTerminal (status n) = true
    · exact Or.inl ⟨ht, by rw [heq]; simp [ht]⟩
    · have ht' : isTerminal (status n) = false := by simpa using ht
      exact Or.inr ⟨ht', hl ht', by rw [heq]; simp [ht']⟩
  · intro ht hc
    have h1 : (pollRun status lat).1 = PollResult.terminal n (status n) := by
      rw [heq]; simp [ht]
    have hask : ask_with_assistants status lat msgs enum
        = .error (.notCompleted (status n)) := by
      unfold ask_with_assistants
      rw [h1]
      simp [hc]
    exact ⟨hask, rfl⟩
  · intro ht hc
    have h1 : (pollRun status lat).1 = PollResult.terminal n (status n) := by
      rw [heq]; simp [ht]
    unfold ask_with_assistants
    rw [h1]
    simp [hc]
  · intro ht htp
    have h1 : (pollRun status lat).1 = PollResult.timeout n := by
      rw [heq]; simp [ht]
    have hask : ask_with_assistants status lat msgs enum = .error .timeout := by
      unfold ask_with_assistants
      rw [h1]
    exact ⟨hask, rfl⟩

/-- C3 witness: the polling contract at a run that completes immediately
with zero latencies. -/
theorem C3_polling_witness : C3Concl statusCompleted latZero [] (fun l => l) :=
  C3_polling statusCompleted latZero [] (fun l => l) (fun _ => le_refl 0)

/-- C4 counterexample: the claim "the result excludes only the malformed
entries while still including every well-formed identifier" is false.  In
`extract_file_ids_from_messages`, an annotation of kind `file_citation`
with the citation object absent raises an `AttributeError` (plain
`ann.file_citation` access); the catch-all `except` ends the scan, so the
well-formed citation of `"f_2"` that follows is dropped (the function still
returns normally). -/
theorem C4_counterexample :
    IsSetEnum (fun l => l) ∧
    "f_2" ∈ msgsSpecIds c4Msgs ∧
    "f_2" ∉ extract_file_ids_from_messages (fun l => l) c4Msgs :=
  ⟨fun l => List.Perm.refl l, by decide, by decide⟩

/-- C4 (amended): both extractors return normally on every input and report
only genuine identifiers; malformations reachable through defaulted
accesses are skipped individually, and whenever no entry raises an
attribute error the result is exactly the deduplicated well-formed
identifier set — but a raising malformation aborts the scan and drops the
identifiers after it. -/
theorem C4_tolerance (enum : List String → List String) (h : IsSetEnum enum)
    (resp : RespObj) (msgs : List Msg) : C4Concl enum resp msgs := by
  have hr := h (respIdsCore resp)
  have hm := h (msgsIdsCore msgs)
  refine ⟨?_, ?_, ?_, ?_⟩
  · intro x hx; exact respIdsCore_sub resp x (hr.mem_iff.mp hx)
  · intro hok
    show (enum (respIdsCore resp)).Perm (dedupFirst (respSpecIds resp))
    rw [← respIdsCore_eq hok]
    exact hr
  · intro x hx; exact msgsIdsCore_sub msgs x (hm.mem_iff.mp hx)
  · intro hok
    show (enum (msgsIdsCore msgs)).Perm (dedupFirst (msgsSpecIds msgs))
    rw [← msgsIdsCore_eq hok]
    exact hm

/-- C4 witness: on a raise-free concrete message list the extraction is
exactly the deduplicated well-formed identifier set. -/
theorem C4_tolerance_witness :
    (extract_file_ids_from_messages (fun l => l) c1Msgs).Perm
      (dedupFirst (msgsSpecIds c1Msgs)) :=
  (C4_tolerance (fun l => l) (fun l => List.Perm.refl l) c1Resp c1Msgs).2.2.2
    (by decide)

/-- C5 counterexample: the claim "answer_text is never silently the empty
string" is false.  With all three primary shapes raising and a secondary
run that completes with no assistant text message, the Ask-tab dispatch
produces a successful result whose `answer_text` is exactly `""` — no
placeholder is applied on the secondary path. -/
theorem C5_counterexample :
    tab_ask_dispatch c5CallFail "m" "vs" "sys" "q" statusCompleted latZero []
      (fun l => l)
    = (.ok ⟨"", []⟩, true, [.fileSearchTop, .toolResources, .extraBody]) :=
  rfl

/-- C5 (amended): an AnswerResult produced via the primary protocol never
has empty `answer_text` (missing or empty text becomes the placeholder
`"(no text)"`), while via the secondary protocol `answer_text` equals the
harvested thread text, which is the empty string when no assistant message
carries nonempty text. -/
theorem C5_answer_text (call : Shape → PrimReq → Except String RespObj)
    (model vs_id system userq : String) (status : Nat → String)
    (lat : Nat → ℚ) (msgs : List Msg)
    (enum : List String → List String) :
    C5Concl call model vs_id system userq status lat msgs enum := by
  rcases hsp : ask_with_responses call model vs_id system userq with ⟨res, tr⟩
  have hd := tab_ask_dispatch_eq call model vs_id system userq status lat
    msgs enum hsp
  constructor
  · intro out tried h
    cases res with
    | ok resp =>
      have hd' : tab_ask_dispatch call model vs_id system userq status lat
          msgs enum
          = (.ok (AskOut.mk (respAnswerText resp)
              (extract_file_ids_from_responses enum resp)), false, tr) := hd
      rw [hd'] at h
      simp only [Prod.mk.injEq, Except.ok.injEq] at h
      obtain ⟨h1, h2, h3⟩ := h
      rw [← h1]
      exact respAnswerText_ne resp
    | error e =>
      have hd' : tab_ask_dispatch call model vs_id system userq status lat
          msgs enum
          = ((ask_with_assistants status lat msgs enum).map
              (fun r => ⟨r.output_text, r.file_ids⟩), true, tr) := hd
      rw [hd'] at h
      simp only [Prod.mk.injEq] at h
      exact absurd h.2.1 (by decide)
  · intro out tried h
    cases res with
    | ok resp =>
      have hd' : tab_ask_dispatch call model vs_id system userq status lat
          msgs enum
          = (.ok (AskOut.mk (respAnswerText resp)
              (extract_file_ids_from_responses enum resp)), false, tr) := hd
      rw [hd'] at h
      simp only [Prod.mk.injEq] at h
      exact absurd h.2.1 (by decide)
    | error e =>
      have hd' : tab_ask_dispatch call model vs_id system userq status lat
          msgs enum
          = ((ask_with_assistants status lat msgs enum).map
              (fun r => ⟨r.output_text, r.file_ids⟩), true, tr) := hd
      rw [hd'] at h
      simp only [Prod.mk.injEq] at h
      obtain ⟨h1, h2, h3⟩ := h
      cases ha : ask_with_assistants status lat msgs enum with
      | error e2 => rw [ha] at h1; cases h1
      | ok r =>
        rw [ha] at h1
        injection h1 with h1'
        obtain ⟨hh, hf⟩ := ask_with_assistants_ok ha
        rw [← h1']
        exact ⟨hh, hf⟩

/-- C5 witness: a primary-path answer text is never the empty string. -/
theorem C5_answer_text_witness : respAnswerText c2Resp ≠ "" :=
  (C5_answer_text callOkW "m" "vs" "sys" "q" statusCompleted latZero []
    (fun l => l)).1
    ⟨respAnswerText c2Resp, extract_file_ids_from_responses (fun l => l) c2Resp⟩
    [.fileSearchTop] rfl

theorem cursorSeqFrom_shift (pager : Option String → VsPage) :
    ∀ (k : Nat) (c : Option String),
      cursorSeqFrom pager c (k + 1) = (pageSeqFrom pager c k).last_id := by
  intro k
  induction k with
  | zero => intro c; rfl
  | succ k ih =>
    intro c
    rw [cursorSeqFrom_succ pager c (k + 1), pageSeqFrom_succ pager c k]
    exact ih _

/-- C6: `list_vs_files` requests every page with limit 100, advances the
cursor along the page chain, continues exactly while `has_more` holds, and
returns the concatenation of all pages' entries in page order paired with
resolved display names; with well-formed pages each cursor advance is the
previous page's last entry identifier. -/
theorem C6_pagination (pager : Option String → VsPage)
    (retr : String → Except Unit FileObj) (n : Nat)
    (hmore : ∀ k < n, (pageSeq pager k).has_more = true)
    (hstop : (pageSeq pager n).has_more = false)
    (hWF : ∀ k ≤ n, (pageSeq pager k).last_id
        = ((pageSeq pager k).data.getLast?).map VsFileEntry.id) :
    C6Concl pager retr n := by
  constructor
  · unfold list_vs_files
    rw [lvfLoop_spec pager n none [] [] hmore hstop]
    simp [pageSeq, cursorSeq]
  · intro k hk
    show cursorSeqFrom pager none (k + 1) = _
    rw [cursorSeqFrom_shift pager k none]
    exact hWF k (le_of_lt hk)

/-- C6 witness: the pagination contract on a concrete two-page listing. -/
theorem C6_pagination_witness : C6Concl pagerW retrErr 1 :=
  C6_pagination pagerW retrErr 1 (by decide) (by decide) (by decide)

/-- C7: the Batch Summarizer processes every file even when some
summarizations raise, collects exactly the successful summaries, records an
error line naming the file for exactly the failing files, and reports
progress `idx/total` after every file. -/
theorem C7_batch (files : List (String × String))
    (summ : Nat → String → Except String String) : C7Concl files summ := by
  have hb := batchGo_spec summ (files.length : ℚ) files 1
  unfold C7Concl tab_all_batch
  rw [hb]
  refine ⟨?_, rfl, rfl, ?_⟩
  · refine List.map_congr_left ?_
    intro i hi
    have h1 : 1 + i = i + 1 := by omega
    rw [h1]
  · have hlen : ∀ l : List (Nat × (String × String)),
        (l.filterMap (fun p =>
            match summ p.1 (perFileQuestion p.2.2) with
            | .ok a => some ("### " ++ p.2.2 ++ "\n\n" ++ a ++ "\n")
            | .error _ => none)).length
        + (l.filterMap (fun p =>
            match summ p.1 (perFileQuestion p.2.2) with
            | .ok _ => none
            | .error e => some (p.2.2 ++ ": " ++ e))).length = l.length := by
      intro l
      induction l with
      | nil => rfl
      | cons p rest ih =>
        cases h : summ p.1 (perFileQuestion p.2.2) <;>
          simp [List.filterMap_cons, h] <;> omega
    have he : (files.enumFrom 1).length = files.length := by simp
    rw [← he]
    exact hlen (files.enumFrom 1)

theorem resolveName_eq_chipLabel (retr : String → Except Unit FileObj)
    (fid : String) : resolveName retr fid = chipLabel retr fid := rfl

theorem resolveName_err {retr : String → Except Unit FileObj} {fid : String}
    {e : Unit} (h : retr fid = .error e) : resolveName retr fid = fid := by
  unfold resolveName; rw [h]

theorem resolveName_okCase {retr : String → Except Unit FileObj}
    {fid : String} {f : FileObj} (h : retr fid = .ok f) :
    resolveName retr fid =
      (match f.filename with
       | Attr.val s => if s = "" then fid else s
       | _ => fid) := by
  unfold resolveName; rw [h]

/-- C8: the File Registry Resolver (in both `list_vs_files` and
`render_sources`) never propagates a lookup failure: on any error it
returns the identifier itself, and otherwise the nonempty filename. -/
theorem C8_resolver (retr : String → Except Unit FileObj) (fid : String) :
    C8Concl retr fid := by
  refine ⟨fun e he => ?_, rfl, ?_⟩
  · have h1 := resolveName_err he
    exact ⟨h1, by rw [← resolveName_eq_chipLabel retr fid]; exact h1⟩
  · cases hr : retr fid with
    | error e => exact Or.inl (resolveName_err hr)
    | ok f =>
      cases hf : f.filename with
      | val s =>
        by_cases hs : s = ""
        · left
          rw [resolveName_okCase hr, hf]
          simp [hs]
        · right
          refine ⟨f, s, rfl, hf, hs, ?_⟩
          rw [resolveName_okCase hr, hf]
          simp [hs]
      | missing => left; rw [resolveName_okCase hr, hf]
      | pyNone => left; rw [resolveName_okCase hr, hf]

/-- C8 witness: a failing lookup resolves to the identifier itself in both
code paths. -/
theorem C8_resolver_witness :
    resolveName retrErr "f_1" = "f_1" ∧ chipLabel retrErr "f_1" = "f_1" :=
  (C8_resolver retrErr "f_1").1 () rfl

/-- C9: `render_sources` shows at most the first 10 identifiers (later ones
are silently omitted) and renders an empty list as the explicit
no-citations message rather than an error. -/
theorem C9_render (retr : String → Except Unit FileObj) (ids : List String) :
    C9Concl retr ids := by
  by_cases hid : ids = []
  · subst hid
    exact ⟨fun _ => rfl, fun h => absurd rfl h, rfl, rfl⟩
  · have hne : ids.isEmpty = false := by
      simpa [List.isEmpty_iff] using hid
    refine ⟨fun h => absurd h hid, fun _ => ?_, ?_, ?_⟩
    · simp [render_sources, hne]
    · simp [render_sources, hne]
    · simp [render_sources, hne, List.length_take, Nat.min_comm]

/-- C9 witness: the empty list yields the no-citations message, and twelve
identifiers yield exactly ten chips. -/
theorem C9_render_witness :
    (render_sources retrErr []).emptyMsg = some noCitationsMsg ∧
    (render_sources retrErr idsTwelve).chips.length = min idsTwelve.length 10 := by
  constructor
  · rw [(C9_render retrErr []).1 rfl]
  · exact (C9_render retrErr idsTwelve).2.2.2

/-- C10: the polling loop checks for a terminal status before checking the
deadline, so a run first observed terminal at poll `k` — even past the
6-minute deadline — yields that status's outcome (success for `completed`,
a status-naming error otherwise) and never the timeout error. -/
theorem C10_terminal_priority (status : Nat → String) (lat : Nat → ℚ)
    (msgs : List Msg) (enum : List String → List String) (k : Nat)
    (hlat : ∀ j, 0 ≤ lat j)
    (hpre : ∀ j < k, isTerminal (status j) = false ∧ tPoll lat j ≤ 360)
    (hterm : isTerminal (status k) = true)
    (hlate : 360 < tPoll lat k) :
    C10Concl status lat msgs enum k := by
  obtain ⟨n, hp, heq, hl⟩ := pollRun_spec status lat hlat
  have hnk : n = k := by
    rcases Nat.lt_trichotomy n k with hlt | he | hgt
    · rcases hpre n hlt with ⟨h1, h2⟩
      rcases em (isTerminal (status n) = true) with ht | ht
      · rw [ht] at h1; cases h1
      · have ht' : isTerminal (status n) = false := by simpa using ht
        have := hl ht'
        linarith
    · exact he
    · have h3 := (hp k hgt).1
      rw [hterm] at h3; cases h3
  subst hnk
  have h1 : (pollRun status lat).1 = PollResult.terminal n (status n) := by
    rw [heq]; simp [hterm]
  have hask : ask_with_assistants status lat msgs enum
      = if status n = "completed" then harvestResult msgs enum
        else .error (.notCompleted (status n)) := by
    unfold ask_with_assistants
    rw [h1]
  refine ⟨h1, ?_, ?_, ?_⟩
  · rw [hask]
    by_cases hc : status n = "completed"
    · rw [if_pos hc]
      unfold harvestResult
      cases hh : harvestMsgs msgs with
      | error e =>
        intro hcon
        injection hcon with h2
        exact AsstErr.noConfusion h2
      | ok a => intro hcon; exact Except.noConfusion hcon
    · rw [if_neg hc]
      intro hcon
      injection hcon with h2
      exact AsstErr.noConfusion h2
  · intro hc; rw [hask, if_pos hc]
  · intro hc; rw [hask, if_neg hc]

/-- C10 witness: a first retrieval slower than the whole deadline that
reports `completed` still succeeds instead of timing out. -/
theorem C10_terminal_priority_witness :
    C10Concl statusCompleted lat400 [] (fun l => l) 0 :=
  C10_terminal_priority statusCompleted lat400 [] (fun l => l) 0
    (fun _ => by norm_num [lat400])
    (fun j hj => absurd hj (Nat.not_lt_zero j))
    (by decide)
    (by norm_num [tPoll, tBefore, lat400])

end PdfQA

